import Mathlib

/-!
Workout log: handlers, router and table.

A shallow embedding of `workoutapp_for_internship.go`.

* Go strings are Lean `String`s; Go `int` is a 64-bit signed integer, kept as an
  `Int` together with the explicit range checks that `strconv.Atoi` makes.
* The `workouts` table is a list of rows in rowid order plus the counter that
  `AUTOINCREMENT` keeps in `sqlite_sequence`.  The SQL statements of the
  handlers are functions on that state.  A row holds what the handlers write,
  a text for each string and an integer for each int, so every row scans back
  into a `Workout`.  The one storage failure of the model is an insert into a
  table that has used up its rowids; failures of the disk or the driver are
  outside it.
* The router is modelled after `gorilla/mux`: the clean-path redirect, the
  routes of `main` in their order, anchored matching of the path templates,
  405 when only the method is wrong and 404 when no route matches.  The file
  server behind `/static/` and the writer of the redirect URL are parameters.
* A handler is a function from the table and the request to the table and the
  response.  Log lines are not part of either and are left out.
* Templates are not executed: a response records which template was asked for
  and the data handed to it.
-/

namespace WorkoutApp

deriving instance DecidableEq for Except

/-! ## strconv -/

/-- The two errors of `strconv`: `ErrSyntax` and `ErrRange`. -/
inductive NumError where
  | ErrSyntax
  | ErrRange
  deriving DecidableEq

/-- Size in bits of a Go `int` (`strconv.IntSize`). -/
def intSize : Nat := 64

/-- Largest `int`. -/
def maxInt : Int := 2 ^ (intSize - 1) - 1

/-- Largest `uint64`, the bound inside `ParseUint`. -/
def maxUint64 : Nat := 2 ^ 64 - 1

/-- An ASCII decimal digit, the bytes `'0'` to `'9'`. -/
def isDigit (c : Char) : Bool := 48 ≤ c.toNat && c.toNat ≤ 57

/-- Value of a digit byte: `ch - '0'`. -/
def digitVal (c : Char) : Nat := c.toNat - 48

/-- The digit byte of a value below ten. -/
def digitChar (d : Nat) : Char := Char.ofNat (48 + d)

/-- The loop of `ParseUint(s, 10, 64)`: a byte that is no digit is a syntax
error, a value that leaves the 64-bit range is a range error. -/
def parseUintLoop : List Char → Nat → Except NumError Nat
  | [], n => .ok n
  | c :: cs, n =>
    if !isDigit c then .error .ErrSyntax
    else if n ≥ maxUint64 / 10 + 1 then .error .ErrRange
    else
      let n1 := n * 10 + digitVal c
      if n1 > maxUint64 then .error .ErrRange
      else parseUintLoop cs n1

/-- The function `ParseUint(s, 10, 64)` on the bytes of `s`: the empty string is
a syntax error. -/
def ParseUint : List Char → Except NumError Nat
  | [] => .error .ErrSyntax
  | cs => parseUintLoop cs 0

/-- The function `ParseInt(s, 10, 0)` on the bytes of `s`: an optional sign, then
`ParseUint`, then the check against the range of `int`. -/
def ParseInt : List Char → Except NumError Int
  | [] => .error .ErrSyntax
  | c :: cs =>
    let neg := c == '-'
    let ds := if c == '+' || c == '-' then cs else c :: cs
    match ParseUint ds with
    | .error e => .error e
    | .ok un =>
      let cutoff : Nat := 2 ^ (intSize - 1)
      if !neg && un ≥ cutoff then .error .ErrRange
      else if neg && un > cutoff then .error .ErrRange
      else .ok (if neg then -(un : Int) else (un : Int))

/-- The function `strconv.Atoi`.  Its fast path for short strings and its slow
path through `ParseInt` return the same results, so one definition serves. -/
def Atoi (s : String) : Except NumError Int := ParseInt s.data

/-- Decimal digits of `n`, most significant first; `fuel` bounds the number of
digits written. -/
def formatAux : Nat → Nat → List Char
  | 0, _ => []
  | fuel + 1, n =>
    if n < 10 then [digitChar n]
    else formatAux fuel (n / 10) ++ [digitChar (n % 10)]

/-- Decimal digits of `n` (`formatBits` in base ten). -/
def formatNat (n : Nat) : List Char := formatAux (n + 1) n

/-- The function `strconv.Itoa`: a minus sign for a negative value, then the
digits of the magnitude. -/
def Itoa (i : Int) : String :=
  if i < 0 then String.mk ('-' :: formatNat i.natAbs) else String.mk (formatNat i.natAbs)

/-! ## The table -/

/-- The struct `Workout`. -/
structure Workout where
  ID : Int
  Exercise : String
  Duration : Int
  Location : String
  Description : String
  deriving DecidableEq

/-- State of the table `workouts`: its rows in rowid order, and the largest
rowid handed out so far, which `AUTOINCREMENT` keeps in `sqlite_sequence`. -/
structure DB where
  rows : List Workout
  seq : Nat
  deriving DecidableEq

/-- The table right after `initDB` created it. -/
def initDB : DB := { rows := [], seq := 0 }

/-- Largest rowid SQLite can assign. -/
def maxRowid : Int := 2 ^ 63 - 1

/-- Largest rowid that the table holds or has ever handed out. -/
def DB.largest (db : DB) : Int := (db.rows.map Workout.ID).foldl max (db.seq : Int)

/-- `INSERT INTO workouts (exercise, duration, location, description) VALUES
(?, ?, ?, ?)` followed by `LastInsertId`: the new rowid is one more than the
largest so far; when that one is the largest possible rowid the statement
fails (SQLITE_FULL). -/
def DB.insert (db : DB) (exercise : String) (duration : Int) (location description : String) :
    Except String (DB × Int) :=
  if db.largest ≥ maxRowid then .error "database or disk is full"
  else
    let id := db.largest + 1
    let row : Workout := ⟨id, exercise, duration, location, description⟩
    .ok ({ rows := db.rows ++ [row], seq := id.toNat }, id)

/-- `UPDATE workouts SET exercise = ?, duration = ?, location = ?, description = ?
WHERE id = ?`. -/
def DB.update (db : DB) (exercise : String) (duration : Int) (location description : String)
    (id : Int) : DB :=
  { db with rows := db.rows.map fun w =>
      if w.ID = id then { w with Exercise := exercise, Duration := duration,
                                 Location := location, Description := description }
      else w }

/-- `SELECT id, exercise, duration, location, description FROM workouts`. -/
def DB.selectAll (db : DB) : List Workout := db.rows

/-- `SELECT ... FROM workouts WHERE id = ?` read by `QueryRow(...).Scan`: the
first matching row, or none (`sql.ErrNoRows`). -/
def DB.selectByID (db : DB) (id : Int) : Option Workout := db.rows.find? fun w => w.ID = id

/-! ## Requests and responses -/

/-- The parts of `http.Request` the handlers read: the method, the URL path, the
parsed form, and the route variables that the router stores for `mux.Vars`. -/
structure Request where
  Method : String
  Path : String
  Form : List (String × String)
  Vars : List (String × String)
  deriving DecidableEq

/-- First value stored under `key`, the empty string when there is none: the
behaviour of `r.FormValue(key)` and of indexing the map `mux.Vars(r)`. -/
def lookup (kvs : List (String × String)) (key : String) : String :=
  match kvs.find? fun kv => kv.1 = key with
  | some kv => kv.2
  | none => ""

/-- The method `r.FormValue(key)`. -/
def Request.FormValue (r : Request) (key : String) : String := lookup r.Form key

/-- The expression `mux.Vars(r)[key]`. -/
def Request.Var (r : Request) (key : String) : String := lookup r.Vars key

/-- Data handed to `tmpl.ExecuteTemplate`. -/
inductive TemplateData where
  | none
  | workout (w : Workout)
  | workouts (ws : List Workout)
  deriving DecidableEq

/-- What a handler wrote to the `http.ResponseWriter`: the status code, the
`Location` header of a redirect, the message of `http.Error`, and the template
executed with its data. -/
structure Response where
  Status : Nat
  Location : Option String
  Error : Option String
  Template : Option (String × TemplateData)
  deriving DecidableEq

/-- The call `http.Error(w, msg, code)`. -/
def httpError (msg : String) (code : Nat) : Response :=
  { Status := code, Location := none, Error := some msg, Template := none }

/-- A redirect with the given `Location`: the call `http.Redirect(w, r, url,
code)` for a `url` that is an absolute, already clean path, and the redirect the
router writes itself. -/
def httpRedirect (url : String) (code : Nat) : Response :=
  { Status := code, Location := some url, Error := none, Template := none }

/-- The call `tmpl.ExecuteTemplate(w, name, data)`; no status was written
before, so the response goes out as 200. -/
def executeTemplate (name : String) (data : TemplateData) : Response :=
  { Status := 200, Location := none, Error := none, Template := some (name, data) }

/-- A handler that returns without writing anything: an empty 200 response. -/
def emptyResponse : Response :=
  { Status := 200, Location := none, Error := none, Template := none }

def StatusBadRequest : Nat := 400
def StatusNotFound : Nat := 404
def StatusMethodNotAllowed : Nat := 405
def StatusInternalServerError : Nat := 500
def StatusSeeOther : Nat := 303
def StatusMovedPermanently : Nat := 301

/-- A handler bound to the table: it may change the table and writes a
response. -/
abbrev Handler := DB → Request → DB × Response

/-! ## Handlers -/

/-- The handler `listWorkouts`. -/
def listWorkouts : Handler := fun db _ =>
  (db, executeTemplate "list.html" (.workouts db.selectAll))

/-- The handler `newWorkout`. -/
def newWorkout : Handler := fun db _ =>
  (db, executeTemplate "new.html" .none)

/-- The handler `createWorkout`. -/
def createWorkout : Handler := fun db r =>
  if r.Method = "POST" then
    let exercise := r.FormValue "exercise"
    let durationStr := r.FormValue "duration"
    let location := r.FormValue "location"
    let description := r.FormValue "description"
    match Atoi durationStr with
    | .error _ => (db, httpError "Invalid duration" StatusBadRequest)
    | .ok duration =>
      match db.insert exercise duration location description with
      | .error e => (db, httpError e StatusInternalServerError)
      | .ok (db1, _) => (db1, httpRedirect "/" StatusSeeOther)
  else (db, emptyResponse)

/-- The handler `showWorkout`. -/
def showWorkout : Handler := fun db r =>
  match Atoi (r.Var "id") with
  | .error _ => (db, httpError "Invalid workout ID" StatusBadRequest)
  | .ok id =>
    match db.selectByID id with
    | none => (db, httpError "Workout not found" StatusNotFound)
    | some workout => (db, executeTemplate "show.html" (.workout workout))

/-- The handler `editWorkout`. -/
def editWorkout : Handler := fun db r =>
  match Atoi (r.Var "id") with
  | .error _ => (db, httpError "Invalid workout ID" StatusBadRequest)
  | .ok id =>
    match db.selectByID id with
    | none => (db, httpError "Workout not found" StatusNotFound)
    | some workout => (db, executeTemplate "edit.html" (.workout workout))

/-- The handler `updateWorkout`. -/
def updateWorkout : Handler := fun db r =>
  if r.Method = "POST" then
    match Atoi (r.Var "id") with
    | .error _ => (db, httpError "Invalid workout ID" StatusBadRequest)
    | .ok id =>
      let exercise := r.FormValue "exercise"
      let durationStr := r.FormValue "duration"
      let location := r.FormValue "location"
      let description := r.FormValue "description"
      match Atoi durationStr with
      | .error _ => (db, httpError "Invalid duration" StatusBadRequest)
      | .ok duration =>
        (db.update exercise duration location description id,
          httpRedirect ("/workout/" ++ Itoa id) StatusSeeOther)
  else (db, emptyResponse)

/-! ## Router -/

/-- The components of a path between its slashes. -/
def splitSlash : List Char → List (List Char)
  | [] => [[]]
  | c :: cs =>
    if c = '/' then [] :: splitSlash cs
    else
      match splitSlash cs with
      | [] => [[c]]
      | x :: xs => (c :: x) :: xs

/-- One pass of `path.Clean` over the components of a rooted path: empty and
`.` components are dropped, `..` removes the component kept last (none at the
root).  `kept` holds the components kept so far, the last one first. -/
def cleanElems : List (List Char) → List (List Char) → List (List Char)
  | [], kept => kept.reverse
  | e :: es, kept =>
    if e = [] ∨ e = ['.'] then cleanElems es kept
    else if e = ['.', '.'] then cleanElems es kept.tail
    else cleanElems es (e :: kept)

/-- The function `path.Clean` on a rooted path. -/
def pathClean (p : List Char) : List Char :=
  '/' :: List.intercalate ['/'] (cleanElems (splitSlash p) [])

/-- The function `cleanPath` of the router: the empty path is the root, a path
is made rooted, cleaned, and gets its trailing slash back. -/
def cleanPath (path : String) : String :=
  if path.data = [] then "/"
  else
    let p := if path.data.head? = some '/' then path.data else '/' :: path.data
    let np := pathClean p
    if p.getLast? = some '/' ∧ np ≠ ['/'] then String.mk (np ++ ['/']) else String.mk np

/-- Removes the leading `p` from `s`, when `s` starts with it. -/
def dropLeading : List Char → List Char → Option (List Char)
  | [], s => some s
  | _ :: _, [] => none
  | p :: ps, c :: cs => if p = c then dropLeading ps cs else none

/-- Removes the trailing `q` from `s`, when `s` ends with it. -/
def dropTrailing (q s : List Char) : Option (List Char) :=
  (dropLeading q.reverse s.reverse).map List.reverse

/-- A full match of the pattern `[0-9]+`. -/
def isDigits (s : List Char) : Bool := !s.isEmpty && s.all isDigit

/-- The path templates that `main` registers: a literal path, a path with one
`id` variable of pattern `[0-9]+` between two literals, and a path prefix. -/
inductive PathTemplate where
  | literal (p : String)
  | withId (before after : String)
  | leading (p : String)
  deriving DecidableEq

/-- Matches a URL path against a template, anchored at both ends (a prefix
template only at the start); a match gives the route variables. -/
def PathTemplate.matches : PathTemplate → String → Option (List (String × String))
  | .literal p, path => if path = p then some [] else none
  | .withId before after, path =>
    match dropLeading before.data path.data with
    | none => none
    | some rest =>
      match dropTrailing after.data rest with
      | none => none
      | some mid => if isDigits mid then some [("id", String.mk mid)] else none
  | .leading p, path =>
    match dropLeading p.data path.data with
    | none => none
    | some _ => some []

/-- A registered route: path template, allowed methods (none listed: any
method), handler. -/
structure Route where
  path : PathTemplate
  methods : List String
  handler : Handler

/-- The routes in the order `main` registers them.  The file server behind
`/static/` is a parameter. -/
def routes (static : Handler) : List Route :=
  [ ⟨.literal "/", ["GET"], listWorkouts⟩,
    ⟨.literal "/workout/new", ["GET"], newWorkout⟩,
    ⟨.literal "/workout/create", ["POST"], createWorkout⟩,
    ⟨.withId "/workout/" "", ["GET"], showWorkout⟩,
    ⟨.withId "/workout/" "/edit", ["GET"], editWorkout⟩,
    ⟨.withId "/workout/" "/update", ["POST"], updateWorkout⟩,
    ⟨.leading "/static/", [], static⟩ ]

/-- Outcome of matching a request against the routes. -/
inductive RouteMatch where
  | found (h : Handler) (vars : List (String × String))
  | methodMismatch
  | notFound

/-- The router's match: the first route whose path and method both match; when
there is none, a method mismatch if some route matched the path alone. -/
def matchRoutes : List Route → Request → Bool → RouteMatch
  | [], _, mismatch => if mismatch then .methodMismatch else .notFound
  | rt :: rts, r, mismatch =>
    match rt.path.matches r.Path with
    | none => matchRoutes rts r mismatch
    | some vars =>
      if rt.methods = [] ∨ r.Method ∈ rt.methods then .found rt.handler vars
      else matchRoutes rts r true

/-- The router's writer of the `Location` of its clean-path redirect: from the
request and the clean path it gives the URL the router sends, the escaped path
followed by the query string of the request (`url.String()`).  The model holds
neither the escaping nor the query string, so the writer is a parameter of the
router. -/
abbrev RedirectURL := Request → String → String

/-- The router that `main` builds and serves: a path that is not clean is
redirected to its clean form, a matched route runs its handler with the route
variables stored in the request, and no match is answered with 405 or 404. -/
def main (static : Handler) (url : RedirectURL) : Handler := fun db r =>
  if cleanPath r.Path ≠ r.Path then
    (db, httpRedirect (url r (cleanPath r.Path)) StatusMovedPermanently)
  else
    match matchRoutes (routes static) r false with
    | .found h vars => h db { r with Vars := vars }
    | .methodMismatch =>
      (db, { Status := StatusMethodNotAllowed, Location := none, Error := none, Template := none })
    | .notFound => (db, httpError "404 page not found" StatusNotFound)

/-! ## Reachable tables -/

/-- The tables the application can reach: the empty table of `initDB`, and any
table left behind by a create or an update request, whatever the request
holds. -/
inductive Reachable : DB → Prop where
  | init : Reachable initDB
  | create (db : DB) (r : Request) : Reachable db → Reachable (createWorkout db r).1
  | update (db : DB) (r : Request) : Reachable db → Reachable (updateWorkout db r).1

/-- The ids of the rows of the table, in table order. -/
def DB.ids (db : DB) : List Int := db.rows.map Workout.ID

/-- A writer of redirect URLs for paths that need no escaping and requests
without a query string, to run the router on concrete requests. -/
def plainURL : RedirectURL := fun _ path => path

/-- A file server that finds no file, to run the router on concrete requests. -/
def noFiles : Handler := fun db _ => (db, httpError "404 page not found" StatusNotFound)

/-- The GET request for the page of the workout named by `seg`. -/
def showRequest (seg : String) (form : List (String × String)) : Request :=
  ⟨"GET", "/workout/" ++ seg, form, []⟩

/-- The GET request for the edit form of the workout named by `seg`. -/
def editRequest (seg : String) (form : List (String × String)) : Request :=
  ⟨"GET", "/workout/" ++ (seg ++ "/edit"), form, []⟩

/-- The POST request that updates the workout named by `seg`. -/
def updateRequest (seg : String) (form : List (String × String)) : Request :=
  ⟨"POST", "/workout/" ++ (seg ++ "/update"), form, []⟩

/-- A digit string in the form `Itoa` writes: a single digit, or no leading
zero. -/
def isCanonical : List Char → Bool
  | [] => false
  | [_] => true
  | c :: _ => c != '0'

/-- A path component that `path.Clean` keeps as it is. -/
def plainElem (s : List Char) : Prop := '/' ∉ s ∧ s ≠ [] ∧ s ≠ ['.'] ∧ s ≠ ['.', '.']

/-- The request as the router hands it to the handler of a route with an `id`
variable. -/
def routed (r : Request) (seg : String) : Request := { r with Vars := [("id", seg)] }

/-- The GET request for the list of workouts. -/
def listRequest : Request := ⟨"GET", "/", [], []⟩

/-- The POST request that creates a workout from a form. -/
def createRequest (form : List (String × String)) : Request :=
  ⟨"POST", "/workout/create", form, []⟩

/-- The form of the round-trip example: Run, 30, Park, 5k. -/
def runForm : List (String × String) :=
  [("exercise", "Run"), ("duration", "30"), ("location", "Park"), ("description", "5k")]

/-- A form whose duration is no number. -/
def badForm : List (String × String) :=
  [("exercise", "Run"), ("duration", "abc"), ("location", "Park"), ("description", "5k")]

/-- A table that holds one workout. -/
def oneRow : DB := { rows := [⟨1, "Row", 20, "Gym", ""⟩], seq := 1 }

/-- What the router answers without running a handler: the redirect to the clean
path, or 404. -/
def routerAnswer (url : RedirectURL) (db : DB) (r : Request) : DB × Response :=
  if cleanPath r.Path ≠ r.Path then
    (db, httpRedirect (url r (cleanPath r.Path)) StatusMovedPermanently)
  else (db, httpError "404 page not found" StatusNotFound)

/-! ## Facts about `strconv` -/

theorem isDigit_digitChar (d : Nat) (h : d < 10) : isDigit (digitChar d) = true := by
  interval_cases d <;> rfl

theorem digitVal_digitChar (d : Nat) (h : d < 10) : digitVal (digitChar d) = d := by
  interval_cases d <;> rfl

theorem digitVal_lt (c : Char) (h : isDigit c = true) : digitVal c < 10 := by
  simp only [isDigit, Bool.and_eq_true, decide_eq_true_eq] at h
  simp only [digitVal]; omega

theorem digitChar_digitVal (c : Char) (h : isDigit c = true) : digitChar (digitVal c) = c := by
  simp only [isDigit, Bool.and_eq_true, decide_eq_true_eq] at h
  have h48 : 48 + digitVal c = c.toNat := by simp only [digitVal]; omega
  simp only [digitChar, h48]
  exact Char.ofNat_toNat c

theorem formatAux_fuel (f1 : Nat) : ∀ (f2 n : Nat), n < f1 → n < f2 →
    formatAux f1 n = formatAux f2 n := by
  induction f1 with
  | zero => intro f2 n h; omega
  | succ k ih =>
    intro f2 n h1 h2
    cases f2 with
    | zero => omega
    | succ m =>
      simp only [formatAux]
      split
      · rfl
      · rw [ih m (n / 10) (by omega) (by omega)]

theorem formatNat_lt (n : Nat) (h : n < 10) : formatNat n = [digitChar n] := by
  simp [formatNat, formatAux, h]

theorem formatNat_ge (n : Nat) (h : 10 ≤ n) :
    formatNat n = formatNat (n / 10) ++ [digitChar (n % 10)] := by
  have h1 : ¬ n < 10 := by omega
  have e : formatAux (n + 1) n = formatAux n (n / 10) ++ [digitChar (n % 10)] := by
    simp only [formatAux, h1, if_false]
  unfold formatNat
  rw [e, formatAux_fuel n (n / 10 + 1) (n / 10) (by omega) (by omega)]

theorem parseUintLoop_append (xs ys : List Char) (acc : Nat) :
    parseUintLoop (xs ++ ys) acc =
      match parseUintLoop xs acc with
      | .error e => .error e
      | .ok v => parseUintLoop ys v := by
  induction xs generalizing acc with
  | nil => rfl
  | cons c cs ih =>
    simp only [List.cons_append, parseUintLoop]
    split
    · rfl
    · split
      · rfl
      · split
        · rfl
        · exact ih _

theorem maxUint64_eq : maxUint64 = 18446744073709551615 := by decide

theorem parseUintLoop_formatNat (n : Nat) (h : n ≤ maxUint64) :
    parseUintLoop (formatNat n) 0 = .ok n := by
  rw [maxUint64_eq] at h
  induction n using Nat.strong_induction_on with
  | _ n ih =>
    by_cases hn : n < 10
    · rw [formatNat_lt n hn]
      simp only [parseUintLoop, isDigit_digitChar n hn, digitVal_digitChar n hn, maxUint64_eq]
      have h2 : ¬ (0 * 10 + n > 18446744073709551615) := by omega
      simp [h2, h]
    · rw [formatNat_ge n (by omega), parseUintLoop_append, ih (n / 10) (by omega) (by omega)]
      have hd := Nat.mod_lt n (show 10 > 0 by decide)
      have hre : n / 10 * 10 + n % 10 = n := by omega
      simp only [parseUintLoop, isDigit_digitChar _ hd, digitVal_digitChar _ hd, hre]
      simp only [maxUint64_eq]
      have h1 : ¬ (n / 10 ≥ 18446744073709551615 / 10 + 1) := by omega
      have h2 : ¬ (n > 18446744073709551615) := by omega
      simp [h1, h2]


theorem formatNat_ne_nil (n : Nat) : formatNat n ≠ [] := by
  by_cases hn : n < 10
  · rw [formatNat_lt n hn]; simp
  · rw [formatNat_ge n (by omega)]; simp

theorem formatNat_digits (n : Nat) : ∀ c ∈ formatNat n, isDigit c = true := by
  induction n using Nat.strong_induction_on with
  | _ n ih =>
    by_cases hn : n < 10
    · rw [formatNat_lt n hn]
      intro c hc
      rw [List.mem_singleton.mp hc]
      exact isDigit_digitChar n hn
    · rw [formatNat_ge n (by omega)]
      intro c hc
      rcases List.mem_append.mp hc with hc | hc
      · exact ih (n / 10) (by omega) c hc
      · rw [List.mem_singleton.mp hc]
        exact isDigit_digitChar _ (Nat.mod_lt n (by decide))

theorem ParseInt_digits (c : Char) (cs : List Char) (hc : isDigit c = true) :
    ParseInt (c :: cs) =
      match parseUintLoop (c :: cs) 0 with
      | .error e => .error e
      | .ok un => if un ≥ 2 ^ 63 then .error .ErrRange else .ok (un : Int) := by
  have hplus : c ≠ '+' := by rintro rfl; exact absurd hc (by decide)
  have hminus : c ≠ '-' := by rintro rfl; exact absurd hc (by decide)
  have hu : ParseUint (c :: cs) = parseUintLoop (c :: cs) 0 := rfl
  simp only [ParseInt, beq_iff_eq, hplus, hminus, intSize, Bool.or_eq_true, or_self, if_false, hu]
  cases parseUintLoop (c :: cs) 0 <;> simp [hminus]

theorem Atoi_Itoa (n : Int) (h0 : 0 ≤ n) (h1 : n ≤ maxInt) : Atoi (Itoa n) = .ok n := by
  have hlt : ¬ n < 0 := by omega
  simp only [Atoi, Itoa, hlt, if_false]
  have hmax : maxInt = 9223372036854775807 := by decide
  rw [hmax] at h1
  have hparse := parseUintLoop_formatNat n.natAbs (by rw [maxUint64_eq]; omega)
  cases hf : formatNat n.natAbs with
  | nil => exact absurd hf (formatNat_ne_nil _)
  | cons c cs =>
    have hc : isDigit c = true := formatNat_digits n.natAbs c (by rw [hf]; simp)
    rw [ParseInt_digits c cs hc, ← hf, hparse]
    have h2 : ¬ (n.natAbs ≥ 2 ^ 63) := by omega
    simp only [h2, if_false]
    congr 1
    omega


theorem digitChar_zero_of_digitVal (c : Char) (hc : isDigit c = true) (h0 : digitVal c = 0) :
    c = '0' := by
  have := digitChar_digitVal c hc
  rw [h0] at this
  exact this.symm

theorem parseUintLoop_step (c : Char) (cs : List Char) (acc v : Nat)
    (h : parseUintLoop (c :: cs) acc = .ok v) :
    isDigit c = true ∧ parseUintLoop cs (acc * 10 + digitVal c) = .ok v := by
  simp only [parseUintLoop] at h
  split at h
  · cases h
  · split at h
    · cases h
    · split at h
      · cases h
      · rename_i hd _ _
        exact ⟨by simpa using hd, h⟩

theorem formatNat_parse_acc (ds : List Char) : ∀ (acc v : Nat), 0 < acc →
    parseUintLoop ds acc = .ok v → formatNat v = formatNat acc ++ ds := by
  induction ds with
  | nil =>
    intro acc v _ h
    simp only [parseUintLoop, Except.ok.injEq] at h
    simp [h]
  | cons c cs ih =>
    intro acc v hacc h
    obtain ⟨hc, hrest⟩ := parseUintLoop_step c cs acc v h
    have hlt := digitVal_lt c hc
    rw [ih (acc * 10 + digitVal c) v (by omega) hrest,
      formatNat_ge (acc * 10 + digitVal c) (by omega)]
    have e1 : (acc * 10 + digitVal c) / 10 = acc := by omega
    have e2 : (acc * 10 + digitVal c) % 10 = digitVal c := by omega
    rw [e1, e2, digitChar_digitVal c hc]
    simp

theorem formatNat_parse (c : Char) (cs : List Char) (v : Nat)
    (h : parseUintLoop (c :: cs) 0 = .ok v) (hcanon : isCanonical (c :: cs) = true) :
    formatNat v = c :: cs := by
  obtain ⟨hc, hrest⟩ := parseUintLoop_step c cs 0 v h
  have hlt := digitVal_lt c hc
  simp only [Nat.zero_mul, Nat.zero_add] at hrest
  cases cs with
  | nil =>
    simp only [parseUintLoop, Except.ok.injEq] at hrest
    rw [← hrest, formatNat_lt _ hlt, digitChar_digitVal c hc]
  | cons c1 cs1 =>
    have hne : c ≠ '0' := by simpa [isCanonical] using hcanon
    have hpos : 0 < digitVal c := by
      rcases Nat.eq_zero_or_pos (digitVal c) with h0 | h0
      · exact absurd (digitChar_zero_of_digitVal c hc h0) hne
      · exact h0
    rw [formatNat_parse_acc (c1 :: cs1) (digitVal c) v hpos hrest, formatNat_lt _ hlt,
      digitChar_digitVal c hc]
    rfl

theorem formatNat_head_ne_zero (n : Nat) : 0 < n → ∀ cs, formatNat n ≠ '0' :: cs := by
  induction n using Nat.strong_induction_on with
  | _ n ih =>
    intro hn cs h
    by_cases hlt : n < 10
    · rw [formatNat_lt n hlt] at h
      have h1 : digitChar n = '0' := (List.cons.inj h).1
      have h2 := digitVal_digitChar n hlt
      rw [h1] at h2
      have h3 : digitVal '0' = 0 := rfl
      omega
    · rw [formatNat_ge n (by omega)] at h
      cases hf : formatNat (n / 10) with
      | nil => exact formatNat_ne_nil _ hf
      | cons c1 cs1 =>
        rw [hf] at h
        have h1 : c1 = '0' := (List.cons.inj h).1
        exact ih (n / 10) (by omega) (by omega) cs1 (by rw [hf, h1])

theorem formatNat_canonical (n : Nat) : isCanonical (formatNat n) = true := by
  cases hf : formatNat n with
  | nil => exact absurd hf (formatNat_ne_nil _)
  | cons c cs =>
    cases cs with
    | nil => rfl
    | cons c1 cs1 =>
      have hpos : 0 < n := by
        rcases Nat.eq_zero_or_pos n with h0 | h0
        · rw [h0] at hf
          have h00 : formatNat 0 = ['0'] := rfl
          rw [h00] at hf
          simp at hf
        · exact h0
      have hne : c ≠ '0' := by
        rintro rfl
        exact formatNat_head_ne_zero n hpos _ hf
      simpa [isCanonical] using hne

/-- For a digit string that parses, `Itoa` gives the string back exactly when it
is in canonical form. -/
theorem Itoa_Atoi_iff (s : String) (n : Int) (hs : isDigits s.data = true)
    (h : Atoi s = .ok n) : Itoa n = s ↔ isCanonical s.data = true := by
  obtain ⟨l⟩ := s
  simp only [Atoi] at h ⊢
  cases l with
  | nil => simp [isDigits] at hs
  | cons c cs =>
    have hc : isDigit c = true := by
      simp only [isDigits, List.all_cons, Bool.and_eq_true] at hs
      exact hs.2.1
    rw [ParseInt_digits c cs hc] at h
    cases hp : parseUintLoop (c :: cs) 0 with
    | error e => rw [hp] at h; cases h
    | ok un =>
      rw [hp] at h
      simp only at h
      split at h
      · cases h
      · simp only [Except.ok.injEq] at h
        subst h
        have hlt : ¬ ((un : Int) < 0) := by omega
        simp only [Itoa, hlt, if_false, Int.natAbs_ofNat]
        constructor
        · intro he
          have he1 : formatNat un = c :: cs := congrArg String.data he
          rw [← he1]
          exact formatNat_canonical un
        · intro hcanon
          exact congrArg String.mk (formatNat_parse c cs un hp hcanon)


theorem isDigits_formatNat (n : Nat) : isDigits (formatNat n) = true := by
  simp only [isDigits, Bool.and_eq_true, Bool.not_eq_true', List.isEmpty_eq_false,
    List.all_eq_true]
  exact ⟨formatNat_ne_nil n, formatNat_digits n⟩

theorem isDigits_Itoa (n : Int) (h0 : 0 ≤ n) : isDigits (Itoa n).data = true := by
  have hlt : ¬ n < 0 := by omega
  simp only [Itoa, hlt, if_false]
  exact isDigits_formatNat _

/-! ## Facts about the table and the handlers -/

theorem foldl_max_ge_init (l : List Int) (a : Int) : a ≤ l.foldl max a := by
  induction l generalizing a with
  | nil => simp
  | cons x xs ih => exact le_trans (le_max_left a x) (ih (max a x))

theorem foldl_max_ge_mem (l : List Int) (a : Int) : ∀ x ∈ l, x ≤ l.foldl max a := by
  induction l generalizing a with
  | nil => simp
  | cons y ys ih =>
    intro x hx
    rcases List.mem_cons.mp hx with rfl | hx
    · exact le_trans (le_max_right a x) (foldl_max_ge_init ys (max a x))
    · exact ih (max a y) x hx

theorem id_le_largest (db : DB) (w : Workout) (h : w ∈ db.rows) : w.ID ≤ db.largest :=
  foldl_max_ge_mem _ _ _ (List.mem_map_of_mem Workout.ID h)

theorem seq_le_largest (db : DB) : db.seq ≤ db.largest := foldl_max_ge_init _ _

/-- What `createWorkout` does on a POST whose duration parses while the table can
still hand out a rowid. -/
theorem createWorkout_ok (db : DB) (r : Request) (d : Int) (hm : r.Method = "POST")
    (hd : Atoi (r.FormValue "duration") = .ok d) (hfull : db.largest < maxRowid) :
    createWorkout db r =
      ({ rows := db.rows ++ [⟨db.largest + 1, r.FormValue "exercise", d,
            r.FormValue "location", r.FormValue "description"⟩],
         seq := (db.largest + 1).toNat }, httpRedirect "/" StatusSeeOther) := by
  simp [createWorkout, hm, hd, DB.insert, not_le.mpr hfull]

theorem createWorkout_full (db : DB) (r : Request) (d : Int) (hm : r.Method = "POST")
    (hd : Atoi (r.FormValue "duration") = .ok d) (hfull : maxRowid ≤ db.largest) :
    createWorkout db r = (db, httpError "database or disk is full" StatusInternalServerError) := by
  simp [createWorkout, hm, hd, DB.insert, hfull]

theorem createWorkout_bad_duration (db : DB) (r : Request) (e : NumError) (hm : r.Method = "POST")
    (hd : Atoi (r.FormValue "duration") = .error e) :
    createWorkout db r = (db, httpError "Invalid duration" StatusBadRequest) := by
  simp [createWorkout, hm, hd]

theorem createWorkout_other_method (db : DB) (r : Request) (hm : r.Method ≠ "POST") :
    createWorkout db r = (db, emptyResponse) := by
  simp [createWorkout, hm]

theorem updateWorkout_ok (db : DB) (r : Request) (n d : Int) (hm : r.Method = "POST")
    (hid : Atoi (r.Var "id") = .ok n) (hd : Atoi (r.FormValue "duration") = .ok d) :
    updateWorkout db r =
      (db.update (r.FormValue "exercise") d (r.FormValue "location") (r.FormValue "description") n,
        httpRedirect ("/workout/" ++ Itoa n) StatusSeeOther) := by
  simp [updateWorkout, hm, hid, hd]

theorem selectByID_none (db : DB) (n : Int) (hn : ∀ w ∈ db.rows, w.ID ≠ n) :
    db.selectByID n = none := by
  simp only [DB.selectByID, List.find?_eq_none]
  intro w hw
  simpa using hn w hw


theorem status_500_of_full (db : DB) (r : Request) (d : Int) (hm : r.Method = "POST")
    (hd : Atoi (r.FormValue "duration") = .ok d)
    (hok : (createWorkout db r).2.Status ≠ StatusInternalServerError) : db.largest < maxRowid := by
  by_contra hfull
  rw [createWorkout_full db r d hm hd (not_lt.mp hfull)] at hok
  exact hok rfl

theorem selectByID_insert (rows : List Workout) (w : Workout) (s : Nat)
    (hfresh : ∀ v ∈ rows, v.ID ≠ w.ID) :
    DB.selectByID ⟨rows ++ [w], s⟩ w.ID = some w := by
  have hnone : rows.find? (fun v => decide (v.ID = w.ID)) = none := by
    rw [List.find?_eq_none]
    intro v hv
    simpa using hfresh v hv
  simp [DB.selectByID, List.find?_append, hnone]

theorem selectByID_update (db : DB) (ex : String) (d : Int) (loc desc : String) (n : Int)
    (hn : ∃ w ∈ db.rows, w.ID = n) :
    (db.update ex d loc desc n).selectByID n = some ⟨n, ex, d, loc, desc⟩ := by
  obtain ⟨rows, s⟩ := db
  simp only [DB.update, DB.selectByID] at *
  induction rows with
  | nil => simp at hn
  | cons v vs ih =>
    by_cases hv : v.ID = n
    · simp [hv]
    · have hrest : ∃ w ∈ vs, w.ID = n := by
        obtain ⟨w, hw, hwn⟩ := hn
        rcases List.mem_cons.mp hw with rfl | hw
        · exact absurd hwn hv
        · exact ⟨w, hw, hwn⟩
      simp [hv, ih hrest]

theorem DB_update_absent (db : DB) (ex : String) (d : Int) (loc desc : String) (n : Int)
    (hn : ∀ w ∈ db.rows, w.ID ≠ n) : db.update ex d loc desc n = db := by
  obtain ⟨rows, s⟩ := db
  simp only [DB.update, DB.mk.injEq, and_true]
  calc rows.map _ = rows.map id := List.map_congr_left (fun w hw => by simp [hn w hw])
    _ = rows := List.map_id rows

theorem update_ids (db : DB) (ex : String) (d : Int) (loc desc : String) (n : Int) :
    (db.update ex d loc desc n).ids = db.ids := by
  simp only [DB.update, DB.ids, List.map_map]
  apply List.map_congr_left
  intro w _
  by_cases h : w.ID = n <;> simp [h]


theorem showWorkout_table (db : DB) (r : Request) : (showWorkout db r).1 = db := by
  unfold showWorkout
  split
  · rfl
  · split <;> rfl

theorem editWorkout_table (db : DB) (r : Request) : (editWorkout db r).1 = db := by
  unfold editWorkout
  split
  · rfl
  · split <;> rfl

theorem ids_lt_next (db : DB) : ∀ m ∈ db.ids, m < db.largest + 1 := by
  intro m hm
  have := foldl_max_ge_mem (db.rows.map Workout.ID) (db.seq : Int) m hm
  have e : db.largest = (db.rows.map Workout.ID).foldl max (db.seq : Int) := rfl
  omega

theorem createWorkout_ids (db : DB) (r : Request) :
    (createWorkout db r).1.ids = db.ids ∨
    ((createWorkout db r).1.ids = db.ids ++ [db.largest + 1] ∧
      ∀ m ∈ db.ids, m < db.largest + 1) := by
  by_cases hm : r.Method = "POST"
  · cases hd : Atoi (r.FormValue "duration") with
    | error e => rw [createWorkout_bad_duration db r e hm hd]; exact Or.inl rfl
    | ok d =>
      by_cases hfull : db.largest < maxRowid
      · rw [createWorkout_ok db r d hm hd hfull]
        exact Or.inr ⟨by simp [DB.ids], ids_lt_next db⟩
      · rw [createWorkout_full db r d hm hd (not_lt.mp hfull)]; exact Or.inl rfl
  · rw [createWorkout_other_method db r hm]; exact Or.inl rfl

theorem updateWorkout_ids (db : DB) (r : Request) : (updateWorkout db r).1.ids = db.ids := by
  by_cases hm : r.Method = "POST"
  · cases hid : Atoi (r.Var "id") with
    | error e => simp [updateWorkout, hm, hid]
    | ok n =>
      cases hd : Atoi (r.FormValue "duration") with
      | error e => simp [updateWorkout, hm, hid, hd]
      | ok d =>
        rw [updateWorkout_ok db r n d hm hid hd]
        exact update_ids db _ _ _ _ n
  · simp [updateWorkout, hm]

theorem reachable_ids_increasing (db : DB) (h : Reachable db) :
    db.ids.Pairwise (fun a b => a < b) := by
  induction h with
  | init => exact List.Pairwise.nil
  | create db r _ ih =>
    rcases createWorkout_ids db r with he | ⟨he, hlt⟩
    · rw [he]; exact ih
    · rw [he, List.pairwise_append]
      refine ⟨ih, List.pairwise_singleton _ _, ?_⟩
      intro a ha b hb
      rw [List.mem_singleton.mp hb]
      exact hlt a ha
  | update db r _ ih =>
    rw [updateWorkout_ids db r]; exact ih

/-! ## Facts about the router -/

theorem dropLeading_append (p x : List Char) : dropLeading p (p ++ x) = some x := by
  induction p with
  | nil => cases x <;> rfl
  | cons c cs ih => simp [dropLeading, ih]

theorem dropLeading_eq_some (p : List Char) : ∀ (s m : List Char),
    dropLeading p s = some m → s = p ++ m := by
  induction p with
  | nil =>
    intro s m h
    cases s <;> simp_all [dropLeading]
  | cons c cs ih =>
    intro s m h
    cases s with
    | nil => simp [dropLeading] at h
    | cons d ds =>
      simp only [dropLeading] at h
      split at h
      · rename_i hcd
        rw [hcd, ih ds m h]
        rfl
      · cases h

theorem dropTrailing_append (q x : List Char) : dropTrailing q (x ++ q) = some x := by
  simp [dropTrailing, dropLeading_append]

theorem dropTrailing_eq_some (q s m : List Char) (h : dropTrailing q s = some m) :
    s = m ++ q := by
  simp only [dropTrailing, Option.map_eq_some'] at h
  obtain ⟨a, ha, ham⟩ := h
  have h1 := dropLeading_eq_some _ _ _ ha
  have h2 : s = (q.reverse ++ a).reverse := by rw [← h1, List.reverse_reverse]
  rw [h2, ← ham]
  simp

theorem splitSlash_ne_nil (s : List Char) : splitSlash s ≠ [] := by
  cases s with
  | nil => simp [splitSlash]
  | cons c cs =>
    simp only [splitSlash]
    split
    · simp
    · split <;> simp

theorem splitSlash_noSlash (x : List Char) (hx : '/' ∉ x) : splitSlash x = [x] := by
  induction x with
  | nil => rfl
  | cons c cs ih =>
    have hc : c ≠ '/' := fun h => hx (by simp [h])
    have hcs : '/' ∉ cs := fun h => hx (by simp [h])
    simp [splitSlash, hc, ih hcs]

theorem splitSlash_append (x rest : List Char) (hx : '/' ∉ x) :
    splitSlash (x ++ '/' :: rest) = x :: splitSlash rest := by
  induction x with
  | nil => simp [splitSlash]
  | cons c cs ih =>
    have hc : c ≠ '/' := fun h => hx (by simp [h])
    have hcs : '/' ∉ cs := fun h => hx (by simp [h])
    simp [splitSlash, hc, ih hcs]

theorem isDigits_noSlash (x : List Char) (hx : isDigits x = true) : '/' ∉ x := by
  intro h
  simp only [isDigits, Bool.and_eq_true, List.all_eq_true] at hx
  exact absurd (hx.2 _ h) (by decide)

theorem isDigits_ne_nil (x : List Char) (hx : isDigits x = true) : x ≠ [] := by
  rintro rfl
  simp [isDigits] at hx

theorem isDigits_noDot (x : List Char) (hx : isDigits x = true) : '.' ∉ x := by
  intro h
  simp only [isDigits, Bool.and_eq_true, List.all_eq_true] at hx
  exact absurd (hx.2 _ h) (by decide)

theorem splitSlash_slash (rest : List Char) : splitSlash ('/' :: rest) = [] :: splitSlash rest := by
  simp [splitSlash]

theorem pathClean_two (a x : List Char) (ha : plainElem a) (hx : plainElem x) :
    pathClean ('/' :: (a ++ '/' :: x)) = '/' :: (a ++ '/' :: x) := by
  obtain ⟨a0, a1, a2, a3⟩ := ha
  obtain ⟨x0, x1, x2, x3⟩ := hx
  rw [pathClean, splitSlash_slash, splitSlash_append a _ a0, splitSlash_noSlash x x0]
  simp [cleanElems, a1, a2, a3, x1, x2, x3, List.intercalate]

theorem pathClean_three (a x t : List Char) (ha : plainElem a) (hx : plainElem x)
    (ht : plainElem t) :
    pathClean ('/' :: (a ++ '/' :: (x ++ '/' :: t))) = '/' :: (a ++ '/' :: (x ++ '/' :: t)) := by
  obtain ⟨a0, a1, a2, a3⟩ := ha
  obtain ⟨x0, x1, x2, x3⟩ := hx
  obtain ⟨t0, t1, t2, t3⟩ := ht
  rw [pathClean, splitSlash_slash, splitSlash_append a _ a0, splitSlash_append x _ x0,
    splitSlash_noSlash t t0]
  simp [cleanElems, a1, a2, a3, x1, x2, x3, t1, t2, t3, List.intercalate]

theorem plainElem_digits (x : List Char) (hx : isDigits x = true) : plainElem x := by
  refine ⟨isDigits_noSlash x hx, isDigits_ne_nil x hx, ?_, ?_⟩
  · rintro rfl; exact isDigits_noDot _ hx (by simp)
  · rintro rfl; exact isDigits_noDot _ hx (by simp)

theorem plainElem_workout : plainElem "workout".data := by
  refine ⟨by decide, by decide, by decide, by decide⟩

theorem plainElem_edit : plainElem "edit".data := by
  refine ⟨by decide, by decide, by decide, by decide⟩

theorem plainElem_update : plainElem "update".data := by
  refine ⟨by decide, by decide, by decide, by decide⟩

theorem cleanPath_of_clean (l : List Char) (hne : l ≠ []) (hhead : l.head? = some '/')
    (hclean : pathClean l = l) (hlast : l.getLast? ≠ some '/') :
    cleanPath (String.mk l) = String.mk l := by
  simp [cleanPath, hne, hhead, hclean, hlast]

theorem getLast?_plain (pre x : List Char) (hx : plainElem x) :
    (pre ++ x).getLast? ≠ some '/' := by
  intro h
  obtain ⟨x0, x1, _, _⟩ := hx
  rw [List.getLast?_append, List.getLast?_eq_getLast x x1] at h
  simp only [Option.or_some, Option.some.injEq] at h
  exact x0 (h ▸ List.getLast_mem x1)

theorem cleanPath_workout (seg : String) (h : plainElem seg.data) :
    cleanPath ("/workout/" ++ seg) = "/workout/" ++ seg := by
  have e : "/workout/" ++ seg = String.mk ('/' :: ("workout".data ++ '/' :: seg.data)) := by
    apply String.ext
    rfl
  rw [e]
  refine cleanPath_of_clean _ (by simp) (by rfl) (pathClean_two _ _ plainElem_workout h) ?_
  have := getLast?_plain ('/' :: ("workout".data ++ ['/'])) seg.data h
  simpa using this

theorem cleanPath_workout_sub (seg t : String) (h : plainElem seg.data) (ht : plainElem t.data) :
    cleanPath ("/workout/" ++ (seg ++ ("/" ++ t))) = "/workout/" ++ (seg ++ ("/" ++ t)) := by
  have e : "/workout/" ++ (seg ++ ("/" ++ t)) =
      String.mk ('/' :: ("workout".data ++ '/' :: (seg.data ++ '/' :: t.data))) := by
    apply String.ext
    rfl
  rw [e]
  refine cleanPath_of_clean _ (by simp) (by rfl) (pathClean_three _ _ _ plainElem_workout h ht) ?_
  have := getLast?_plain ('/' :: ("workout".data ++ '/' :: (seg.data ++ ['/']))) t.data ht
  simpa using this


theorem workout_ne_root (rest : String) : "/workout/" ++ rest ≠ "/" := by
  intro h
  have := congrArg (fun s => s.data.length) h
  simp at this

theorem workout_eq_iff (rest lit : String) :
    "/workout/" ++ rest = "/workout/" ++ lit ↔ rest = lit := by
  constructor
  · intro h
    have h1 := congrArg String.data h
    simp only [String.data_append] at h1
    exact String.ext (List.append_cancel_left h1)
  · intro h; rw [h]

theorem withId_matches_workout (a rest : String) :
    (PathTemplate.withId "/workout/" a).matches ("/workout/" ++ rest) =
      match dropTrailing a.data rest.data with
      | none => none
      | some mid => if isDigits mid then some [("id", String.mk mid)] else none := by
  have h : dropLeading "/workout/".data ("/workout/" ++ rest).data = some rest.data := by
    rw [String.data_append, dropLeading_append]
  show (match dropLeading "/workout/".data ("/workout/" ++ rest).data with
    | none => none
    | some rest =>
      match dropTrailing a.data rest with
      | none => none
      | some mid => if isDigits mid then some [("id", String.mk mid)] else none) = _
  rw [h]

theorem static_not_workout (rest : String) :
    (PathTemplate.leading "/static/").matches ("/workout/" ++ rest) = none := by
  have h : dropLeading "/static/".data ("/workout/" ++ rest).data = none := rfl
  simp only [PathTemplate.matches, h]

theorem dropTrailing_nil (x : List Char) : dropTrailing [] x = some x := by
  have := dropTrailing_append [] x
  simpa using this

theorem dropTrailing_none_of_noSlash (t x : List Char) (hx : '/' ∉ x) :
    dropTrailing ('/' :: t) x = none := by
  cases h : dropTrailing ('/' :: t) x with
  | none => rfl
  | some m =>
    have := dropTrailing_eq_some _ _ _ h
    exact absurd (by rw [this]; simp) hx

theorem split_at_slash (x y s t : List Char) (hx : '/' ∉ x) (hy : '/' ∉ y)
    (h : x ++ '/' :: s = y ++ '/' :: t) : x = y ∧ s = t := by
  induction x generalizing y with
  | nil =>
    cases y with
    | nil => simpa using h
    | cons d ds =>
      simp only [List.nil_append, List.cons_append, List.cons.injEq] at h
      exact absurd (by simp [← h.1]) hy
  | cons c cs ih =>
    cases y with
    | nil =>
      simp only [List.nil_append, List.cons_append, List.cons.injEq] at h
      exact absurd (by simp [h.1]) hx
    | cons d ds =>
      simp only [List.cons_append, List.cons.injEq] at h
      have := ih ds (fun hc => hx (by simp [hc])) (fun hd => hy (by simp [hd])) h.2
      exact ⟨by rw [h.1, this.1], this.2⟩

theorem dropTrailing_sub (t u x : List Char) (hx : '/' ∉ x) (hu : '/' ∉ u) (ht : '/' ∉ t) :
    dropTrailing ('/' :: t) (x ++ '/' :: u) = if t = u then some x else none := by
  by_cases htu : t = u
  · subst htu
    simp [dropTrailing_append]
  · simp only [htu, if_false]
    cases h : dropTrailing ('/' :: t) (x ++ '/' :: u) with
    | none => rfl
    | some m =>
      exfalso
      have e := dropTrailing_eq_some _ _ _ h
      have hm : '/' ∉ m := by
        have hc := congrArg (List.count '/') e
        simp only [List.count_append, List.count_cons_self, List.count_eq_zero_of_not_mem hx,
          List.count_eq_zero_of_not_mem hu, List.count_eq_zero_of_not_mem ht] at hc
        exact List.count_eq_zero.mp (by omega)
      exact htu (split_at_slash x m u t hx hm e).2.symm

theorem isDigits_sub (x t : List Char) : isDigits (x ++ '/' :: t) = false := by
  cases h : isDigits (x ++ '/' :: t) with
  | false => rfl
  | true => exact absurd (by simp) (isDigits_noSlash _ h)

theorem sub_ne_plain (seg t lit : String) (hl : '/' ∉ lit.data) : seg ++ ("/" ++ t) ≠ lit := by
  intro h
  apply hl
  rw [← h]
  have : ("/" : String).data = ['/'] := rfl
  simp [this]

theorem literal_matches (p path : String) :
    (PathTemplate.literal p).matches path = if path = p then some [] else none := rfl

theorem route_show (static : Handler) (seg : String) (form : List (String × String))
    (hs : '/' ∉ seg.data) :
    matchRoutes (routes static) (showRequest seg form) false =
      if seg = "new" then .found newWorkout []
      else if isDigits seg.data then .found showWorkout [("id", seg)]
      else if seg = "create" then .methodMismatch
      else .notFound := by
  have e2 : "/workout/new" = "/workout/" ++ "new" := by decide
  have e3 : "/workout/create" = "/workout/" ++ "create" := by decide
  have h2 : ("/workout/" ++ seg = "/workout/new") = (seg = "new") := by
    rw [e2, workout_eq_iff]
  have h3 : ("/workout/" ++ seg = "/workout/create") = (seg = "create") := by
    rw [e3, workout_eq_iff]
  have d4 : dropTrailing "".data seg.data = some seg.data := dropTrailing_nil _
  have d5 : dropTrailing "/edit".data seg.data = none := dropTrailing_none_of_noSlash _ _ hs
  have d6 : dropTrailing "/update".data seg.data = none := dropTrailing_none_of_noSlash _ _ hs
  have hm1 : ¬ "GET" = "POST" := by decide
  simp only [routes, matchRoutes, showRequest, literal_matches, workout_ne_root, if_false,
    withId_matches_workout, static_not_workout, d4, d5, d6, h2, h3]
  by_cases hnew : seg = "new"
  · simp [hnew]
  · by_cases hcr : seg = "create"
    · have hd : isDigits seg.data = false := by rw [hcr]; decide
      have hd2 : isDigits ['c', 'r', 'e', 'a', 't', 'e'] = false := by decide
      simp [hnew, hcr, hd2, hm1]
    · cases hd : isDigits seg.data <;> simp [hnew, hcr, hd]

theorem route_edit (static : Handler) (seg : String) (form : List (String × String))
    (hs : '/' ∉ seg.data) :
    matchRoutes (routes static) (editRequest seg form) false =
      if isDigits seg.data then .found editWorkout [("id", seg)] else .notFound := by
  have e2 : "/workout/new" = "/workout/" ++ "new" := by decide
  have e3 : "/workout/create" = "/workout/" ++ "create" := by decide
  have ee : "/edit" = "/" ++ "edit" := by decide
  have hn2 : ¬ "/workout/" ++ (seg ++ "/edit") = "/workout/new" := by
    rw [e2, workout_eq_iff, ee]; exact sub_ne_plain _ _ _ (by decide)
  have hn3 : ¬ "/workout/" ++ (seg ++ "/edit") = "/workout/create" := by
    rw [e3, workout_eq_iff, ee]; exact sub_ne_plain _ _ _ (by decide)
  have hdata : (seg ++ "/edit").data = seg.data ++ '/' :: "edit".data := rfl
  have d4 : dropTrailing "".data (seg ++ "/edit").data = some (seg ++ "/edit").data :=
    dropTrailing_nil _
  have d5 : dropTrailing "/edit".data (seg ++ "/edit").data = some seg.data := by
    rw [hdata]
    exact (dropTrailing_sub "edit".data "edit".data seg.data hs (by decide) (by decide)).trans
      (by simp)
  have d6 : dropTrailing "/update".data (seg ++ "/edit").data = none := by
    rw [hdata]
    exact (dropTrailing_sub "update".data "edit".data seg.data hs (by decide) (by decide)).trans
      (if_neg (by decide))
  have hnd : isDigits (seg ++ "/edit").data = false := by rw [hdata]; exact isDigits_sub _ _
  simp only [routes, matchRoutes, editRequest, literal_matches, workout_ne_root, if_false,
    withId_matches_workout, static_not_workout, d4, d5, d6, hn2, hn3, hnd]
  cases hd : isDigits seg.data <;> simp

theorem route_update (static : Handler) (seg : String) (form : List (String × String))
    (hs : '/' ∉ seg.data) :
    matchRoutes (routes static) (updateRequest seg form) false =
      if isDigits seg.data then .found updateWorkout [("id", seg)] else .notFound := by
  have e2 : "/workout/new" = "/workout/" ++ "new" := by decide
  have e3 : "/workout/create" = "/workout/" ++ "create" := by decide
  have ee : "/update" = "/" ++ "update" := by decide
  have hn2 : ¬ "/workout/" ++ (seg ++ "/update") = "/workout/new" := by
    rw [e2, workout_eq_iff, ee]; exact sub_ne_plain _ _ _ (by decide)
  have hn3 : ¬ "/workout/" ++ (seg ++ "/update") = "/workout/create" := by
    rw [e3, workout_eq_iff, ee]; exact sub_ne_plain _ _ _ (by decide)
  have hdata : (seg ++ "/update").data = seg.data ++ '/' :: "update".data := rfl
  have d4 : dropTrailing "".data (seg ++ "/update").data = some (seg ++ "/update").data :=
    dropTrailing_nil _
  have d5 : dropTrailing "/edit".data (seg ++ "/update").data = none := by
    rw [hdata]
    exact (dropTrailing_sub "edit".data "update".data seg.data hs (by decide) (by decide)).trans
      (if_neg (by decide))
  have d6 : dropTrailing "/update".data (seg ++ "/update").data = some seg.data := by
    rw [hdata]
    exact (dropTrailing_sub "update".data "update".data seg.data hs (by decide)
      (by decide)).trans (by simp)
  have hnd : isDigits (seg ++ "/update").data = false := by rw [hdata]; exact isDigits_sub _ _
  simp only [routes, matchRoutes, updateRequest, literal_matches, workout_ne_root, if_false,
    withId_matches_workout, static_not_workout, d4, d5, d6, hn2, hn3, hnd]
  cases hd : isDigits seg.data <;> simp


theorem digits_ne_new (seg : String) (hd : isDigits seg.data = true) : seg ≠ "new" := by
  rintro rfl
  exact absurd hd (by decide)

theorem main_show_digits (static : Handler) (url : RedirectURL) (db : DB) (seg : String)
    (form : List (String × String)) (hd : isDigits seg.data = true) :
    main static url db (showRequest seg form) =
      showWorkout db (routed (showRequest seg form) seg) := by
  have hclean : cleanPath (showRequest seg form).Path = (showRequest seg form).Path :=
    cleanPath_workout seg (plainElem_digits _ hd)
  simp only [main, hclean, ne_eq, not_true_eq_false, if_false,
    route_show static seg form (isDigits_noSlash _ hd), digits_ne_new seg hd, hd, if_true]
  rfl

theorem main_edit_digits (static : Handler) (url : RedirectURL) (db : DB) (seg : String)
    (form : List (String × String)) (hd : isDigits seg.data = true) :
    main static url db (editRequest seg form) =
      editWorkout db (routed (editRequest seg form) seg) := by
  have hclean : cleanPath (editRequest seg form).Path = (editRequest seg form).Path :=
    cleanPath_workout_sub seg "edit" (plainElem_digits _ hd) plainElem_edit
  simp only [main, hclean, ne_eq, not_true_eq_false, if_false,
    route_edit static seg form (isDigits_noSlash _ hd), hd, if_true]
  rfl

theorem main_update_digits (static : Handler) (url : RedirectURL) (db : DB) (seg : String)
    (form : List (String × String)) (hd : isDigits seg.data = true) :
    main static url db (updateRequest seg form) =
      updateWorkout db (routed (updateRequest seg form) seg) := by
  have hclean : cleanPath (updateRequest seg form).Path = (updateRequest seg form).Path :=
    cleanPath_workout_sub seg "update" (plainElem_digits _ hd) plainElem_update
  simp only [main, hclean, ne_eq, not_true_eq_false, if_false,
    route_update static seg form (isDigits_noSlash _ hd), hd, if_true]
  rfl

theorem main_edit_other (static : Handler) (url : RedirectURL) (db : DB) (seg : String)
    (form : List (String × String)) (hs : '/' ∉ seg.data) (hd : isDigits seg.data = false) :
    main static url db (editRequest seg form) = routerAnswer url db (editRequest seg form) := by
  simp only [main, routerAnswer, route_edit static seg form hs, hd]
  rfl

theorem main_update_other (static : Handler) (url : RedirectURL) (db : DB) (seg : String)
    (form : List (String × String)) (hs : '/' ∉ seg.data) (hd : isDigits seg.data = false) :
    main static url db (updateRequest seg form) =
      routerAnswer url db (updateRequest seg form) := by
  simp only [main, routerAnswer, route_update static seg form hs, hd]
  rfl

theorem main_show_other (static : Handler) (url : RedirectURL) (db : DB) (seg : String)
    (form : List (String × String)) (hs : '/' ∉ seg.data) (hd : isDigits seg.data = false)
    (hnew : seg ≠ "new") (hcr : seg ≠ "create") :
    main static url db (showRequest seg form) = routerAnswer url db (showRequest seg form) := by
  simp only [main, routerAnswer, route_show static seg form hs, hd, hnew, hcr]
  rfl

theorem main_show_new_create (static : Handler) (url : RedirectURL) (db : DB) (seg : String)
    (form : List (String × String)) (h : seg = "new" ∨ seg = "create") :
    (main static url db (showRequest seg form)).1 = db ∧
    ((main static url db (showRequest seg form)).2.Status = 200 ∨
     (main static url db (showRequest seg form)).2.Status = 301 ∨
     (main static url db (showRequest seg form)).2.Status = 405) := by
  rcases h with rfl | rfl
  · exact ⟨rfl, Or.inl rfl⟩
  · exact ⟨rfl, Or.inr (Or.inr rfl)⟩


theorem routed_var (r : Request) (seg : String) : (routed r seg).Var "id" = seg := by
  simp [routed, Request.Var, lookup]

theorem routerAnswer_table (url : RedirectURL) (db : DB) (r : Request) :
    (routerAnswer url db r).1 = db := by
  unfold routerAnswer
  split <;> rfl

theorem routerAnswer_status (url : RedirectURL) (db : DB) (r : Request) :
    (routerAnswer url db r).2.Status ≠ 400 := by
  unfold routerAnswer
  split
  · show StatusMovedPermanently ≠ 400
    decide
  · show StatusNotFound ≠ 400
    decide

theorem routerAnswer_clean (url : RedirectURL) (db : DB) (r : Request)
    (h : cleanPath r.Path = r.Path) :
    routerAnswer url db r = (db, httpError "404 page not found" StatusNotFound) := by
  simp [routerAnswer, h]

/-! ## The properties of the specification -/

/-- C1: a POST to `/workout/create` whose `duration` does not parse is answered
by `createWorkout` with status 400, and the table after the request is the
table before it. -/
theorem createWorkout_invalid_duration (db : DB) (r : Request) (e : NumError)
    (hm : r.Method = "POST") (hd : Atoi (r.FormValue "duration") = .error e) :
    (createWorkout db r).2.Status = 400 ∧ (createWorkout db r).1 = db := by
  rw [createWorkout_bad_duration db r e hm hd]
  exact ⟨rfl, rfl⟩

/-- C1 at the durations `abc` and the empty string (a form without a duration
field), on a table that holds a row. -/
theorem createWorkout_invalid_duration_witness :
    (Atoi ((createRequest badForm).FormValue "duration") = .error .ErrSyntax ∧
      (createWorkout oneRow (createRequest badForm)).2.Status = 400 ∧
      (createWorkout oneRow (createRequest badForm)).1 = oneRow) ∧
    (Atoi ((createRequest []).FormValue "duration") = .error .ErrSyntax ∧
      (createWorkout oneRow (createRequest [])).2.Status = 400 ∧
      (createWorkout oneRow (createRequest [])).1 = oneRow) :=
  ⟨⟨rfl, createWorkout_invalid_duration oneRow (createRequest badForm) .ErrSyntax rfl rfl⟩,
   ⟨rfl, createWorkout_invalid_duration oneRow (createRequest []) .ErrSyntax rfl rfl⟩⟩

/-- C2: after a POST to `/workout/create` with a duration that parses and no
storage failure (the response is not the 500 of a failed insert), the list that
`listWorkouts` renders has one row more than before: the old rows and one new
row, which carries the submitted exercise, duration, location and description,
occurs once, and has an id that no row had before. -/
theorem create_then_list (db : DB) (r q q1 : Request) (d : Int)
    (hm : r.Method = "POST") (hd : Atoi (r.FormValue "duration") = .ok d)
    (hok : (createWorkout db r).2.Status ≠ StatusInternalServerError) :
    ∃ (before after : List Workout) (w : Workout),
      (listWorkouts db q).2.Template = some ("list.html", .workouts before) ∧
      (listWorkouts (createWorkout db r).1 q1).2.Template = some ("list.html", .workouts after) ∧
      after.length = before.length + 1 ∧
      after.Perm (w :: before) ∧
      w.Exercise = r.FormValue "exercise" ∧ w.Duration = d ∧
      w.Location = r.FormValue "location" ∧ w.Description = r.FormValue "description" ∧
      after.count w = 1 ∧
      ∀ v ∈ before, v.ID ≠ w.ID := by
  have hfull := status_500_of_full db r d hm hd hok
  have hfresh : ∀ v ∈ db.rows, v.ID ≠ db.largest + 1 := by
    intro v hv h
    have := id_le_largest db v hv
    omega
  refine ⟨db.rows, db.rows ++ [⟨db.largest + 1, r.FormValue "exercise", d,
      r.FormValue "location", r.FormValue "description"⟩],
      ⟨db.largest + 1, r.FormValue "exercise", d, r.FormValue "location",
        r.FormValue "description"⟩, rfl, ?_, by simp, ?_, rfl, rfl, rfl, rfl, ?_, hfresh⟩
  · rw [createWorkout_ok db r d hm hd hfull]; rfl
  · exact (List.perm_append_comm).trans (by simp)
  · rw [List.count_append]
    have h0 : db.rows.count (⟨db.largest + 1, r.FormValue "exercise", d,
        r.FormValue "location", r.FormValue "description"⟩ : Workout) = 0 := by
      rw [List.count_eq_zero]
      intro hmem
      exact hfresh _ hmem rfl
    simp [h0]

/-- C2 at the form Run, 30, Park, 5k on a table that holds one row. -/
theorem create_then_list_witness :
    (createRequest runForm).Method = "POST" ∧
    Atoi ((createRequest runForm).FormValue "duration") = .ok 30 ∧
    (createWorkout oneRow (createRequest runForm)).2.Status ≠ StatusInternalServerError ∧
    ∃ (before after : List Workout) (w : Workout),
      (listWorkouts oneRow listRequest).2.Template
        = some ("list.html", .workouts before) ∧
      (listWorkouts (createWorkout oneRow (createRequest runForm)).1 listRequest).2.Template
        = some ("list.html", .workouts after) ∧
      after.length = before.length + 1 ∧
      after.Perm (w :: before) ∧
      w.Exercise = (createRequest runForm).FormValue "exercise" ∧ w.Duration = 30 ∧
      w.Location = (createRequest runForm).FormValue "location" ∧
      w.Description = (createRequest runForm).FormValue "description" ∧
      after.count w = 1 ∧
      ∀ v ∈ before, v.ID ≠ w.ID :=
  ⟨rfl, rfl, by decide,
    create_then_list oneRow (createRequest runForm) listRequest listRequest 30
      rfl rfl (by decide)⟩

/-- C3: round trip.  When `createWorkout` inserts the submitted exercise,
duration, location and description and the storage assigns id `n`, a request
for the workout `n` (the route variable parses to `n`, as the decimal form of
`n` does, also through the router) makes `showWorkout` render `show.html` with
the workout of id `n` and exactly the four submitted values. -/
theorem create_then_show (static : Handler) (url : RedirectURL) (db db1 : DB) (r : Request) (d n : Int)
    (hm : r.Method = "POST") (hd : Atoi (r.FormValue "duration") = .ok d)
    (hins : db.insert (r.FormValue "exercise") d (r.FormValue "location")
      (r.FormValue "description") = .ok (db1, n)) :
    (createWorkout db r).1 = db1 ∧
    Atoi (Itoa n) = .ok n ∧
    (∀ q : Request, Atoi (q.Var "id") = .ok n →
      showWorkout db1 q = (db1, executeTemplate "show.html"
        (.workout ⟨n, r.FormValue "exercise", d, r.FormValue "location",
          r.FormValue "description"⟩))) ∧
    main static url db1 (showRequest (Itoa n) []) = (db1, executeTemplate "show.html"
        (.workout ⟨n, r.FormValue "exercise", d, r.FormValue "location",
          r.FormValue "description"⟩)) := by
  have hfull : db.largest < maxRowid := by
    by_contra hc
    simp [DB.insert, not_lt.mp hc] at hins
  have hins1 := hins
  simp only [DB.insert, not_le.mpr hfull, if_false, Except.ok.injEq, Prod.mk.injEq] at hins1
  obtain ⟨hdb, hn⟩ := hins1
  have hpos : 0 ≤ n := by
    have := seq_le_largest db
    omega
  have hmax : n ≤ maxInt := by
    have e1 : maxInt = 9223372036854775807 := by decide
    have e2 : maxRowid = 9223372036854775807 := by decide
    omega
  have hround := Atoi_Itoa n hpos hmax
  have hfresh : ∀ v ∈ db.rows, v.ID ≠ n := by
    intro v hv h
    have := id_le_largest db v hv
    omega
  have hshow : ∀ q : Request, Atoi (q.Var "id") = .ok n →
      showWorkout db1 q = (db1, executeTemplate "show.html"
        (.workout ⟨n, r.FormValue "exercise", d, r.FormValue "location",
          r.FormValue "description"⟩)) := by
    intro q hq
    have hsel : db1.selectByID n = some ⟨n, r.FormValue "exercise", d, r.FormValue "location",
        r.FormValue "description"⟩ := by
      rw [← hdb, ← hn]
      exact selectByID_insert db.rows ⟨db.largest + 1, _, _, _, _⟩ _
        (fun v hv => by rw [hn]; exact hfresh v hv)
    simp only [showWorkout, hq, hsel]
  refine ⟨?_, hround, hshow, ?_⟩
  · rw [createWorkout_ok db r d hm hd hfull, ← hdb]
  · rw [main_show_digits static url db1 (Itoa n) [] (isDigits_Itoa n hpos)]
    exact hshow _ hround

/-- C3 at the values Run, 30, Park, 5k on the empty table: the id is 1. -/
theorem create_then_show_witness :
    initDB.insert "Run" 30 "Park" "5k" = .ok (⟨[⟨1, "Run", 30, "Park", "5k"⟩], 1⟩, 1) ∧
    (createWorkout initDB (createRequest runForm)).1 = ⟨[⟨1, "Run", 30, "Park", "5k"⟩], 1⟩ ∧
    main noFiles plainURL ⟨[⟨1, "Run", 30, "Park", "5k"⟩], 1⟩ (showRequest (Itoa 1) []) =
      (⟨[⟨1, "Run", 30, "Park", "5k"⟩], 1⟩,
        executeTemplate "show.html" (.workout ⟨1, "Run", 30, "Park", "5k"⟩)) :=
  have h := create_then_show noFiles plainURL initDB ⟨[⟨1, "Run", 30, "Park", "5k"⟩], 1⟩
    (createRequest runForm) 30 1 rfl rfl rfl
  ⟨rfl, h.1, h.2.2.2⟩

/-- C4: on a table with a row of id `n`, after a POST to `/workout/n/update` with
a duration that parses, `showWorkout` and `editWorkout` for id `n` render the
workout whose id is still `n` and whose exercise, duration, location and
description are the submitted values. -/
theorem update_then_show (db : DB) (r q : Request) (n d : Int)
    (hm : r.Method = "POST") (hid : Atoi (r.Var "id") = .ok n)
    (hd : Atoi (r.FormValue "duration") = .ok d)
    (hrow : ∃ w ∈ db.rows, w.ID = n) (hq : Atoi (q.Var "id") = .ok n) :
    (showWorkout (updateWorkout db r).1 q).2 =
      executeTemplate "show.html" (.workout ⟨n, r.FormValue "exercise", d,
        r.FormValue "location", r.FormValue "description"⟩) ∧
    (editWorkout (updateWorkout db r).1 q).2 =
      executeTemplate "edit.html" (.workout ⟨n, r.FormValue "exercise", d,
        r.FormValue "location", r.FormValue "description"⟩) := by
  rw [updateWorkout_ok db r n d hm hid hd]
  have hsel := selectByID_update db (r.FormValue "exercise") d (r.FormValue "location")
    (r.FormValue "description") n hrow
  constructor
  · simp [showWorkout, hq, hsel]
  · simp [editWorkout, hq, hsel]

/-- C4 on the table with the row (1, Row, 20, Gym), updated to Run, 30, Park,
5k. -/
theorem update_then_show_witness :
    (∃ w ∈ oneRow.rows, w.ID = 1) ∧
    (showWorkout (updateWorkout oneRow (routed (updateRequest "1" runForm) "1")).1
        (routed (showRequest "1" []) "1")).2 =
      executeTemplate "show.html" (.workout ⟨1, "Run", 30, "Park", "5k"⟩) ∧
    (editWorkout (updateWorkout oneRow (routed (updateRequest "1" runForm) "1")).1
        (routed (showRequest "1" []) "1")).2 =
      executeTemplate "edit.html" (.workout ⟨1, "Run", 30, "Park", "5k"⟩) :=
  ⟨⟨⟨1, "Row", 20, "Gym", ""⟩, by decide, rfl⟩,
    update_then_show oneRow (routed (updateRequest "1" runForm) "1")
      (routed (showRequest "1" []) "1") 1 30 rfl rfl rfl
      ⟨⟨1, "Row", 20, "Gym", ""⟩, by decide, rfl⟩ rfl⟩

/-- C5 as stated fails: on the table reached by one create, whose only row has
id 1, the numeric id 9223372036854775808 matches `[0-9]+`, was never assigned and
is in no row, yet it is outside the range of int, `strconv.Atoi` rejects it, and
`GET /workout/9223372036854775808` and its edit form are answered with status
400, not 404. -/
theorem numeric_id_out_of_range :
    Reachable (createWorkout initDB (createRequest runForm)).1 ∧
    isDigits "9223372036854775808".data = true ∧
    (∀ w ∈ (createWorkout initDB (createRequest runForm)).1.rows,
      w.ID ≠ 9223372036854775808) ∧
    Atoi "9223372036854775808" = .error .ErrRange ∧
    (main noFiles plainURL (createWorkout initDB (createRequest runForm)).1
      (showRequest "9223372036854775808" [])).2.Status = 400 ∧
    (main noFiles plainURL (createWorkout initDB (createRequest runForm)).1
      (editRequest "9223372036854775808" [])).2.Status = 400 ∧
    (showWorkout (createWorkout initDB (createRequest runForm)).1
      (routed (showRequest "9223372036854775808" []) "9223372036854775808")).2.Status = 400 ∧
    (editWorkout (createWorkout initDB (createRequest runForm)).1
      (routed (editRequest "9223372036854775808" []) "9223372036854775808")).2.Status = 400 ∧
    ¬ (main noFiles plainURL (createWorkout initDB (createRequest runForm)).1
      (showRequest "9223372036854775808" [])).2.Status = 404 ∧
    ¬ (main noFiles plainURL (createWorkout initDB (createRequest runForm)).1
      (editRequest "9223372036854775808" [])).2.Status = 404 :=
  ⟨Reachable.create _ _ Reachable.init, by decide, by decide, by decide, by decide, by decide,
    by decide, by decide, by decide, by decide⟩

/-- C5, amended: for every table, so for every table reachable from the empty
one, and every numeric id that parses as an int `n` which no row of the table
has, `showWorkout` and `editWorkout` answer a request for it with status 404 and
render no template. -/
theorem show_edit_missing (db : DB) (q : Request) (n : Int)
    (hq : Atoi (q.Var "id") = .ok n) (hn : ∀ w ∈ db.rows, w.ID ≠ n) :
    (showWorkout db q).2.Status = 404 ∧ (showWorkout db q).2.Template = none ∧
    (editWorkout db q).2.Status = 404 ∧ (editWorkout db q).2.Template = none := by
  have hsel := selectByID_none db n hn
  simp [showWorkout, editWorkout, hq, hsel, httpError, StatusNotFound]

/-- C5, amended, for id 2 on the table reached by one create, whose only row
has id 1. -/
theorem show_edit_missing_witness :
    Reachable (createWorkout initDB (createRequest runForm)).1 ∧
    (showWorkout (createWorkout initDB (createRequest runForm)).1
      (routed (showRequest "2" []) "2")).2.Status = 404 ∧
    (showWorkout (createWorkout initDB (createRequest runForm)).1
      (routed (showRequest "2" []) "2")).2.Template = none ∧
    (editWorkout (createWorkout initDB (createRequest runForm)).1
      (routed (editRequest "2" []) "2")).2.Status = 404 ∧
    (editWorkout (createWorkout initDB (createRequest runForm)).1
      (routed (editRequest "2" []) "2")).2.Template = none :=
  have h1 := show_edit_missing (createWorkout initDB (createRequest runForm)).1
    (routed (showRequest "2" []) "2") 2 rfl (by decide)
  have h2 := show_edit_missing (createWorkout initDB (createRequest runForm)).1
    (routed (editRequest "2" []) "2") 2 rfl (by decide)
  ⟨Reachable.create _ _ Reachable.init, h1.1, h1.2.1, h2.2.2.1, h2.2.2.2⟩

/-- C7: a POST to `/workout/n/update` with a duration that parses, for an id `n`
that no row of the table has, leaves the table as it was and is still answered
with the redirect of a successful update, status 303. -/
theorem update_missing (db : DB) (r : Request) (n d : Int)
    (hm : r.Method = "POST") (hid : Atoi (r.Var "id") = .ok n)
    (hd : Atoi (r.FormValue "duration") = .ok d) (hn : ∀ w ∈ db.rows, w.ID ≠ n) :
    (updateWorkout db r).1 = db ∧ (updateWorkout db r).2.Status = 303 := by
  rw [updateWorkout_ok db r n d hm hid hd]
  exact ⟨DB_update_absent db _ _ _ _ n hn, rfl⟩

/-- C7 for id 5 on a table whose only row has id 1. -/
theorem update_missing_witness :
    (∀ w ∈ oneRow.rows, w.ID ≠ 5) ∧
    (updateWorkout oneRow (routed (updateRequest "5" runForm) "5")).1 = oneRow ∧
    (updateWorkout oneRow (routed (updateRequest "5" runForm) "5")).2.Status = 303 :=
  ⟨by decide,
    update_missing oneRow (routed (updateRequest "5" runForm) "5") 5 30 rfl rfl rfl (by decide)⟩

/-- C9: whenever one of the handlers `createWorkout`, `updateWorkout`,
`showWorkout`, `editWorkout`, `listWorkouts` answers with status 400 or 404, the
table after the request is the table before it; and `updateWorkout` with an id
that parses and a duration that does not answers 400 and changes no row. -/
theorem error_keeps_table (db : DB) (r : Request) :
    (∀ h ∈ [createWorkout, updateWorkout, showWorkout, editWorkout, listWorkouts],
      ((h db r).2.Status = 400 ∨ (h db r).2.Status = 404) → (h db r).1 = db) ∧
    (∀ (n : Int) (e : NumError), r.Method = "POST" → Atoi (r.Var "id") = .ok n →
      Atoi (r.FormValue "duration") = .error e →
      updateWorkout db r = (db, httpError "Invalid duration" 400)) := by
  constructor
  · intro h hmem hstatus
    simp only [List.mem_cons, List.mem_singleton, List.not_mem_nil, or_false] at hmem
    rcases hmem with rfl | rfl | rfl | rfl | rfl
    · by_cases hm : r.Method = "POST"
      · cases hd : Atoi (r.FormValue "duration") with
        | error e => rw [createWorkout_bad_duration db r e hm hd]
        | ok d =>
          by_cases hfull : db.largest < maxRowid
          · rw [createWorkout_ok db r d hm hd hfull] at hstatus
            simp [httpRedirect, StatusSeeOther] at hstatus
          · rw [createWorkout_full db r d hm hd (not_lt.mp hfull)]
      · rw [createWorkout_other_method db r hm]
    · by_cases hm : r.Method = "POST"
      · cases hid : Atoi (r.Var "id") with
        | error e => simp [updateWorkout, hm, hid]
        | ok n =>
          cases hd : Atoi (r.FormValue "duration") with
          | error e => simp [updateWorkout, hm, hid, hd]
          | ok d =>
            rw [updateWorkout_ok db r n d hm hid hd] at hstatus
            simp [httpRedirect, StatusSeeOther] at hstatus
      · simp [updateWorkout, hm]
    · exact showWorkout_table db r
    · exact editWorkout_table db r
    · rfl
  · intro n e hm hid hd
    simp [updateWorkout, hm, hid, hd, StatusBadRequest]

/-- C9 for an update of the existing row 1 with the duration `abc`: status 400
and the row is as before. -/
theorem error_keeps_table_witness :
    updateWorkout oneRow (routed (updateRequest "1" badForm) "1") =
      (oneRow, httpError "Invalid duration" 400) ∧
    (createWorkout oneRow (createRequest badForm)).1 = oneRow :=
  ⟨(error_keeps_table oneRow (routed (updateRequest "1" badForm) "1")).2 1 .ErrSyntax rfl rfl rfl,
   (error_keeps_table oneRow (createRequest badForm)).1 createWorkout (by simp)
     (Or.inl (by decide))⟩

/-- C10: in every table reachable from the empty one by create and update
requests of any content, the ids are in strictly increasing order of creation,
so no two rows share an id; a further create leaves the ids as they are or adds
one id, greater than all ids of the table, after them; a further update leaves
the ids as they are.  No request changes or removes the id of a row. -/
theorem ids_invariant (db : DB) (h : Reachable db) :
    db.ids.Pairwise (fun a b => a < b) ∧ db.ids.Nodup ∧
    (∀ r : Request, (createWorkout db r).1.ids = db.ids ∨
      ∃ n, (createWorkout db r).1.ids = db.ids ++ [n] ∧ ∀ m ∈ db.ids, m < n) ∧
    (∀ r : Request, (updateWorkout db r).1.ids = db.ids) := by
  have hinc := reachable_ids_increasing db h
  refine ⟨hinc, ?_, ?_, updateWorkout_ids db⟩
  · exact hinc.imp (fun hab => ne_of_lt hab)
  · intro r
    rcases createWorkout_ids db r with he | ⟨he, hlt⟩
    · exact Or.inl he
    · exact Or.inr ⟨_, he, hlt⟩

/-- C10 on the table reached by a create, an update of the new row, a create
with a bad duration and another create: its ids are 1 and 2. -/
theorem ids_invariant_witness :
    Reachable (createWorkout (createWorkout (updateWorkout
      (createWorkout initDB (createRequest runForm)).1
      (routed (updateRequest "1" runForm) "1")).1 (createRequest badForm)).1
      (createRequest runForm)).1 ∧
    (createWorkout (createWorkout (updateWorkout
      (createWorkout initDB (createRequest runForm)).1
      (routed (updateRequest "1" runForm) "1")).1 (createRequest badForm)).1
      (createRequest runForm)).1.ids = [1, 2] ∧
    (createWorkout (createWorkout (updateWorkout
      (createWorkout initDB (createRequest runForm)).1
      (routed (updateRequest "1" runForm) "1")).1 (createRequest badForm)).1
      (createRequest runForm)).1.ids.Nodup :=
  have hr : Reachable (createWorkout (createWorkout (updateWorkout
      (createWorkout initDB (createRequest runForm)).1
      (routed (updateRequest "1" runForm) "1")).1 (createRequest badForm)).1
      (createRequest runForm)).1 :=
    Reachable.create _ _ (Reachable.create _ _ (Reachable.update _ _
      (Reachable.create _ _ Reachable.init)))
  ⟨hr, by decide, (ids_invariant _ hr).2.1⟩

/-- C6 as stated fails: the ids `abc` and `-1` do not match `[0-9]+`, so the
requests match no route and the router answers 404, not 400. -/
theorem malformed_id_not_400 :
    isDigits "abc".data = false ∧ isDigits "-1".data = false ∧
    (main noFiles plainURL initDB (showRequest "abc" [])).2.Status = 404 ∧
    (main noFiles plainURL initDB (editRequest "abc" [])).2.Status = 404 ∧
    (main noFiles plainURL initDB (updateRequest "abc" runForm)).2.Status = 404 ∧
    (main noFiles plainURL initDB (showRequest "-1" [])).2.Status = 404 ∧
    ¬ (main noFiles plainURL initDB (showRequest "abc" [])).2.Status = 400 := by
  decide

/-- C6, amended: routed as `main` registers the routes, a request to
`GET /workout/ID`, `GET /workout/ID/edit` or `POST /workout/ID/update` whose id
is a digit string that does not parse as an int is answered with status 400 by
the handler.  An id segment that does not match `[0-9]+` reaches none of the
three handlers: the router answers it itself, never with 400 and with the table
as it was; for a segment that is a plain path component (not empty, not `.` or
`..`) other than `new` and `create`, the answer is 404. -/
theorem malformed_id_routed (static : Handler) (url : RedirectURL) (db : DB) (seg : String)
    (form : List (String × String)) :
    (isDigits seg.data = true → (∃ e, Atoi seg = .error e) →
      main static url db (showRequest seg form) = (db, httpError "Invalid workout ID" 400) ∧
      main static url db (editRequest seg form) = (db, httpError "Invalid workout ID" 400) ∧
      main static url db (updateRequest seg form) = (db, httpError "Invalid workout ID" 400)) ∧
    (isDigits seg.data = false → '/' ∉ seg.data →
      ∀ r ∈ [showRequest seg form, editRequest seg form, updateRequest seg form],
        (main static url db r).2.Status ≠ 400 ∧ (main static url db r).1 = db) ∧
    (isDigits seg.data = false → plainElem seg.data → seg ≠ "new" → seg ≠ "create" →
      ∀ r ∈ [showRequest seg form, editRequest seg form, updateRequest seg form],
        main static url db r = (db, httpError "404 page not found" 404)) := by
  refine ⟨?_, ?_, ?_⟩
  · rintro hd ⟨e, he⟩
    rw [main_show_digits static url db seg form hd, main_edit_digits static url db seg form hd,
      main_update_digits static url db seg form hd]
    have hm : (routed (updateRequest seg form) seg).Method = "POST" := rfl
    refine ⟨?_, ?_, ?_⟩
    · simp [showWorkout, routed_var, he, StatusBadRequest]
    · simp [editWorkout, routed_var, he, StatusBadRequest]
    · simp [updateWorkout, hm, routed_var, he, StatusBadRequest]
  · intro hd hs r hr
    have hedit := main_edit_other static url db seg form hs hd
    have hupdate := main_update_other static url db seg form hs hd
    have hshow := main_show_other static url db seg form hs hd
    simp only [List.mem_cons, List.mem_singleton, List.not_mem_nil, or_false] at hr
    rcases hr with rfl | rfl | rfl
    · by_cases hnew : seg = "new"
      · have h := main_show_new_create static url db seg form (Or.inl hnew)
        refine ⟨?_, h.1⟩
        rcases h.2 with h2 | h2 | h2 <;> rw [h2] <;> decide
      · by_cases hcr : seg = "create"
        · have h := main_show_new_create static url db seg form (Or.inr hcr)
          refine ⟨?_, h.1⟩
          rcases h.2 with h2 | h2 | h2 <;> rw [h2] <;> decide
        · rw [hshow hnew hcr]
          exact ⟨routerAnswer_status _ _ _, routerAnswer_table _ _ _⟩
    · rw [hedit]
      exact ⟨routerAnswer_status _ _ _, routerAnswer_table _ _ _⟩
    · rw [hupdate]
      exact ⟨routerAnswer_status _ _ _, routerAnswer_table _ _ _⟩
  · intro hd hp hnew hcr r hr
    simp only [List.mem_cons, List.mem_singleton, List.not_mem_nil, or_false] at hr
    rcases hr with rfl | rfl | rfl
    · rw [main_show_other static url db seg form hp.1 hd hnew hcr]
      exact routerAnswer_clean url db _ (cleanPath_workout seg hp)
    · rw [main_edit_other static url db seg form hp.1 hd]
      exact routerAnswer_clean url db _ (cleanPath_workout_sub seg "edit" hp plainElem_edit)
    · rw [main_update_other static url db seg form hp.1 hd]
      exact routerAnswer_clean url db _ (cleanPath_workout_sub seg "update" hp plainElem_update)

/-- C6, amended, at the digit string 99999999999999999999, which is out of the
range of int, and at `abc`. -/
theorem malformed_id_routed_witness :
    (isDigits "99999999999999999999".data = true ∧
      Atoi "99999999999999999999" = .error .ErrRange ∧
      main noFiles plainURL oneRow (showRequest "99999999999999999999" []) =
        (oneRow, httpError "Invalid workout ID" 400) ∧
      main noFiles plainURL oneRow (editRequest "99999999999999999999" []) =
        (oneRow, httpError "Invalid workout ID" 400) ∧
      main noFiles plainURL oneRow (updateRequest "99999999999999999999" runForm) =
        (oneRow, httpError "Invalid workout ID" 400)) ∧
    (isDigits "abc".data = false ∧ plainElem "abc".data ∧
      main noFiles plainURL oneRow (editRequest "abc" []) = (oneRow, httpError "404 page not found" 404)) :=
  ⟨⟨by decide, by decide,
      (malformed_id_routed noFiles plainURL oneRow "99999999999999999999" []).1 (by decide)
        ⟨.ErrRange, by decide⟩ |>.1,
      (malformed_id_routed noFiles plainURL oneRow "99999999999999999999" []).1 (by decide)
        ⟨.ErrRange, by decide⟩ |>.2.1,
      (malformed_id_routed noFiles plainURL oneRow "99999999999999999999" runForm).1 (by decide)
        ⟨.ErrRange, by decide⟩ |>.2.2⟩,
    ⟨by decide, ⟨by decide, by decide, by decide, by decide⟩,
      (malformed_id_routed noFiles plainURL oneRow "abc" []).2.2 (by decide)
        ⟨by decide, by decide, by decide, by decide⟩ (by decide) (by decide)
        (editRequest "abc" []) (by simp)⟩⟩

/-- C8 as stated fails: for the id written `007` the update is answered with
status 303 and the Location `/workout/7`, which is not `/workout/007`. -/
theorem leading_zeros_redirect :
    isDigits "007".data = true ∧ Atoi "007" = .ok 7 ∧
    Atoi ((updateRequest "007" runForm).FormValue "duration") = .ok 30 ∧
    (main noFiles plainURL oneRow (updateRequest "007" runForm)).2.Status = 303 ∧
    (main noFiles plainURL oneRow (updateRequest "007" runForm)).2.Location = some "/workout/7" ∧
    (updateWorkout oneRow (routed (updateRequest "007" runForm) "007")).2.Location
      = some "/workout/7" ∧
    (main noFiles plainURL oneRow (updateRequest "007" runForm)).2.Location
      ≠ some ("/workout/" ++ "007") := by
  decide

/-- C8, amended: for an update request whose id matches `[0-9]+` and parses as
the int `n` and whose duration parses, `updateWorkout` answers with status 303
and the Location `/workout/` followed by the decimal form of `n` as
`strconv.Itoa` writes it.  That is the id as it appeared in the path exactly
when the id was written without leading zeros. -/
theorem update_redirect (db : DB) (r : Request) (n d : Int)
    (hm : r.Method = "POST") (hdig : isDigits (r.Var "id").data = true)
    (hid : Atoi (r.Var "id") = .ok n) (hd : Atoi (r.FormValue "duration") = .ok d) :
    (updateWorkout db r).2.Status = 303 ∧
    (updateWorkout db r).2.Location = some ("/workout/" ++ Itoa n) ∧
    ((updateWorkout db r).2.Location = some ("/workout/" ++ r.Var "id") ↔
      isCanonical (r.Var "id").data = true) := by
  rw [updateWorkout_ok db r n d hm hid hd]
  refine ⟨rfl, rfl, ?_⟩
  simp only [httpRedirect, Option.some.injEq, workout_eq_iff]
  exact Itoa_Atoi_iff (r.Var "id") n hdig hid

/-- C8, amended, at the id 12. -/
theorem update_redirect_witness :
    isDigits ((routed (updateRequest "12" runForm) "12").Var "id").data = true ∧
    (updateWorkout oneRow (routed (updateRequest "12" runForm) "12")).2.Status = 303 ∧
    (updateWorkout oneRow (routed (updateRequest "12" runForm) "12")).2.Location
      = some ("/workout/" ++ Itoa 12) :=
  have h := update_redirect oneRow (routed (updateRequest "12" runForm) "12") 12 30
    rfl (by decide) (by decide) (by decide)
  ⟨by decide, h.1, h.2.1⟩

end WorkoutApp
